import Mathlib

set_option maxHeartbeats 1000000
set_option linter.unusedVariables false

/-!
Verification of the db-mcp multi-database query broker.

The definitions below are shallow embeddings of the TypeScript sources:
the query validator (`security/query-validator.ts`), the query executor
(`database/query-executor.ts`), the MySQL adapter (`adapters/mysql`),
the adapter factory (`adapters/factory.ts`), the cross-database handler
(`MultiDatabaseMCPServer.handleCrossDatabaseQuery`), and the schema cache
warm-up (`schema-cache.ts`). JS strings are modelled as `List Char`
(ASCII range; the sources only handle SQL text), JS numbers as `Nat`/`Int`,
thrown errors as `Except String`, and wall-clock reads as explicit
parameters.
-/

namespace DbMcp

/-- Characters matched by the JS regex class for whitespace and removed by
`String.prototype.trim`, restricted to the ASCII range (the Unicode space
code points never occur in the SQL text the system handles). -/
def isJsSpace (c : Char) : Bool :=
  c == ' ' || c == '\t' || c == '\n' || c == '\r' || c == '\x0b' || c == '\x0c'

/-- Does the second list start with the first one? -/
def startsWithL : List Char → List Char → Bool
  | [], _ => true
  | _ :: _, [] => false
  | a :: as, b :: bs => a == b && startsWithL as bs

/-- Does `n` occur as a contiguous run inside the second list?
(JS `String.prototype.includes`, and the plain-text regex searches.) -/
def containsSub (n : List Char) : List Char → Bool
  | [] => n.isEmpty
  | c :: cs => startsWithL n (c :: cs) || containsSub n cs

/-- Split at the first occurrence of `n`: the part strictly before the match
and the part strictly after it; `none` when `n` does not occur. -/
def breakOnSub (n : List Char) : List Char → Option (List Char × List Char)
  | [] => if n.isEmpty then some ([], []) else none
  | c :: cs =>
    if startsWithL n (c :: cs) then some ([], (c :: cs).drop n.length)
    else
      match breakOnSub n cs with
      | some (pre, post) => some (c :: pre, post)
      | none => none

/-- Remove trailing JS whitespace. -/
def trimRight : List Char → List Char
  | [] => []
  | c :: cs =>
    match trimRight cs with
    | [] => if isJsSpace c then [] else [c]
    | r => c :: r

/-- JS `String.prototype.trim` on char lists. -/
def jsTrim (l : List Char) : List Char := trimRight (l.dropWhile isJsSpace)

mutual

/-- One step of the JS whitespace-run collapse (the replace of a whitespace
run by a single space), scanning outside a run. -/
def collapseWSAux : List Char → List Char
  | [] => []
  | c :: cs => if isJsSpace c then ' ' :: collapseSkip cs else c :: collapseWSAux cs

/-- Scanning state inside a whitespace run: the single replacement space for
this run has already been emitted. -/
def collapseSkip : List Char → List Char
  | [] => []
  | c :: cs => if isJsSpace c then collapseSkip cs else c :: collapseWSAux cs

end

/-- Accumulator worker for the JS split on the newline character. -/
def splitLinesAux : List Char → List Char → List (List Char)
  | [], acc => [acc.reverse]
  | c :: cs, acc =>
    if c == '\n' then acc.reverse :: splitLinesAux cs [] else splitLinesAux cs (c :: acc)

/-- JS `split('\n')`. -/
def splitLines (l : List Char) : List (List Char) := splitLinesAux l []

/-- Rejoin the lines with newline characters (inverse of `splitLines`). -/
def joinLines : List (List Char) → List Char
  | [] => []
  | [x] => x
  | x :: xs => x ++ '\n' :: joinLines xs

/-- Drop everything from the first occurrence of two dashes on: the effect of
the line-comment regex on a line free of carriage returns. -/
def dropFromDashes (l : List Char) : List Char :=
  match breakOnSub ['-', '-'] l with
  | none => l
  | some (pre, _) => pre

/-- One line of the line-comment strip. The JS dot does not match a carriage
return, and the end anchor in multiline mode only holds at the end of the
line, so only a dash pair after the last carriage return of the line can
start a removed region. -/
def stripLineOne (line : List Char) : List Char :=
  match breakOnSub ['\r'] line.reverse with
  | none => dropFromDashes line
  | some (rpost, rpre) => rpre.reverse ++ '\r' :: dropFromDashes rpost.reverse

/-- The global multiline replace of the line-comment regex by the empty
string: strip per newline-separated line. -/
def stripLineComments (l : List Char) : List Char :=
  joinLines ((splitLines l).map stripLineOne)

/-- Fuel-driven worker for the block-comment strip. The fuel only satisfies
the termination checker and is always sufficient: every removed comment
consumes at least four characters of the remaining input. When the opener
has no later closer, the regex cannot match anywhere in the remainder, so
the whole input is returned unchanged. -/
def stripBlockAux : Nat → List Char → List Char
  | 0, l => l
  | f + 1, l =>
    match breakOnSub ['/', '*'] l with
    | none => l
    | some (pre, rest) =>
      match breakOnSub ['*', '/'] rest with
      | none => l
      | some (_, post) => pre ++ stripBlockAux f post

/-- The global replace of the lazy block-comment regex by the empty string. -/
def stripBlockComments (l : List Char) : List Char := stripBlockAux l.length l

mutual

/-- JS split on whitespace runs, inside a token; `acc` holds the token read
so far, reversed. -/
def splitWSTok : List Char → List Char → List (List Char)
  | [], acc => [acc.reverse]
  | c :: cs, acc =>
    if isJsSpace c then acc.reverse :: splitWSRun cs else splitWSTok cs (c :: acc)

/-- JS split on whitespace runs, inside a run (note the empty trailing token
a trailing run produces). -/
def splitWSRun : List Char → List (List Char)
  | [] => [[]]
  | c :: cs => if isJsSpace c then splitWSRun cs else splitWSTok cs [c]

end

/-- JS split on whitespace runs (producing empty leading and trailing tokens
exactly as the JS split does). -/
def jsSplitWS (l : List Char) : List (List Char) := splitWSTok l []

/-- JS `toUpperCase` on the ASCII range. -/
def toUpperL (l : List Char) : List Char := l.map Char.toUpper

/-- JS `toLowerCase` on the ASCII range. -/
def toLowerL (l : List Char) : List Char := l.map Char.toLower

/-- Does the predicate hold on some suffix of the list? -/
def anyTailB (p : List Char → Bool) : List Char → Bool
  | [] => p []
  | c :: cs => p (c :: cs) || anyTailB p cs

/-- Accumulator worker splitting at line terminators (the characters the JS
dot never matches). -/
def splitTermAux : List Char → List Char → List (List Char)
  | [], acc => [acc.reverse]
  | c :: cs, acc =>
    if c == '\n' || c == '\r' then acc.reverse :: splitTermAux cs []
    else splitTermAux cs (c :: acc)

/-- The maximal line-terminator-free segments of the input. -/
def dotSegments (l : List Char) : List (List Char) := splitTermAux l []

/-- Matching relation of a regex of shape first-word, dot-star, second-word:
both words and the gap must sit inside one terminator-free segment, with the
second word somewhere after the first. -/
def inOrderSeg (a b : List Char) (l : List Char) : Bool :=
  (dotSegments l).any fun seg =>
    match breakOnSub a seg with
    | none => false
    | some (_, rest) => containsSub b rest

/-- Matching relation, at the head of the list, of the pattern INTO,
whitespace run, OUTFILE. Backtracking cannot produce further matches here
because OUTFILE does not start with a whitespace character. -/
def intoOutfileAt (l : List Char) : Bool :=
  startsWithL ("into".toList) l &&
    (let rest := l.drop 4
     !(rest.takeWhile isJsSpace).isEmpty &&
       startsWithL ("outfile".toList) (rest.dropWhile isJsSpace))

/-- Matching relation of the INTO-whitespace-OUTFILE suspicious pattern. -/
def hasIntoOutfile (l : List Char) : Bool := anyTailB intoOutfileAt l

/-- The security limits of `config/index.ts`, with no environment overrides
(the documented defaults). -/
structure SecurityConfig where
  maxExecutionTime : Nat
  maxResultRows : Nat
  maxQueryLength : Nat
  allowedKeywords : List String
deriving Repr, DecidableEq

/-- `securityConfig` from `config/index.ts`. -/
def securityConfig : SecurityConfig :=
  { maxExecutionTime := 30000
    maxResultRows := 10000
    maxQueryLength := 10000
    allowedKeywords :=
      ["SELECT", "FROM", "WHERE", "JOIN", "INNER", "LEFT", "RIGHT", "FULL", "OUTER",
       "ORDER", "BY", "GROUP", "HAVING", "LIMIT", "OFFSET", "DISTINCT",
       "AS", "AND", "OR", "NOT", "IN", "EXISTS", "BETWEEN", "LIKE", "IS", "NULL",
       "COUNT", "SUM", "AVG", "MIN", "MAX", "CASE", "WHEN", "THEN", "ELSE", "END",
       "UNION", "INTERSECT", "EXCEPT", "WITH", "RECURSIVE",
       "SHOW", "DESCRIBE", "DESC", "EXPLAIN", "ANALYZE"] }

namespace QueryValidator

/-- `QueryValidator.normalizeQuery` on char lists: trim, collapse whitespace
runs to one space, strip the line comments, strip the block comments, trim. -/
def normalizeL (l : List Char) : List Char :=
  jsTrim (stripBlockComments (stripLineComments (collapseWSAux (jsTrim l))))

/-- `QueryValidator.normalizeQuery`. -/
def normalizeQuery (query : String) : String := ⟨normalizeL query.toList⟩

/-- The result record of `QueryValidator.validate`. The warnings list is not
modelled: neither the validity flag nor the error list nor the sanitized
query ever depends on a warning. -/
structure ValidationResult where
  isValid : Bool
  errors : List String
  sanitizedQuery : Option String
deriving Repr, DecidableEq

/-- `validateBasicInput`: `none` when the basic shape checks pass, otherwise
the single error message pushed. The empty string is falsy in JS, so it
trips the first check. -/
def validateBasicInput (query : String) : Option String :=
  if query.toList.isEmpty then some "Query must be a non-empty string"
  else if securityConfig.maxQueryLength < query.toList.length then
    some ("Query exceeds maximum length of " ++
      toString securityConfig.maxQueryLength ++ " characters")
  else if (jsTrim query.toList).isEmpty then
    some "Query cannot be empty or whitespace only"
  else none

/-- The `forbiddenKeywords` list of the validator. -/
def forbiddenKeywords : List String :=
  ["INSERT", "UPDATE", "DELETE", "REPLACE", "MERGE",
   "CREATE", "ALTER", "DROP", "TRUNCATE", "RENAME",
   "BEGIN", "COMMIT", "ROLLBACK", "START TRANSACTION",
   "GRANT", "REVOKE", "SET PASSWORD", "CREATE USER", "DROP USER",
   "LOAD DATA", "SELECT ... INTO OUTFILE", "LOAD_FILE",
   "CALL", "EXECUTE", "EXEC",
   "FLUSH", "RESET", "KILL", "SHUTDOWN"]

/-- The keyword loop of `checkForbiddenKeywords`: one error per forbidden
keyword occurring as a whole whitespace-delimited word or as a plain
substring of the uppercased query. -/
def forbiddenKeywordErrors (nq : List Char) : List String :=
  let queryUpper := toUpperL nq
  let words := jsSplitWS queryUpper
  (forbiddenKeywords.filter fun kw =>
      words.contains kw.toList || containsSub kw.toList queryUpper).map
    fun kw => "Forbidden keyword detected: " ++ kw

/-- The leading-operation check at the end of `checkForbiddenKeywords`: the
first word, when truthy, must be on the configured allow-list. -/
def allowedOpErrors (nq : List Char) : List String :=
  let words := jsSplitWS (toUpperL nq)
  match words.head? with
  | none => []
  | some firstWord =>
    if !firstWord.isEmpty &&
        !(securityConfig.allowedKeywords.map String.toList).contains firstWord then
      ["Operation \x27" ++ String.mk firstWord ++
        "\x27 is not allowed. Only read-only operations are permitted."]
    else []

/-- The twelve `suspiciousPatterns` regexes, paired with their JS source text
(as reported in the error messages). Each predicate is the matching relation
of the corresponding case-insensitive regex, evaluated on the lowercased
query. -/
def suspiciousPatternList : List (String × (List Char → Bool)) :=
  [("(\x27|(\\x27)|(\\x2D\\x2D)|(%27)|(%2D%2D))", fun low =>
      containsSub ['\x27'] low || containsSub ['-', '-'] low ||
        containsSub "%27".toList low || containsSub "%2d%2d".toList low),
   ("(\\x00|\\n|\\r|\\x1a)", fun low =>
      low.contains '\x00' || low.contains '\n' || low.contains '\r' ||
        low.contains '\x1a'),
   ("(union.*select)", fun low => inOrderSeg "union".toList "select".toList low),
   ("(concat.*\\()", fun low => inOrderSeg "concat".toList ['('] low),
   ("(information_schema)", fun low => containsSub "information_schema".toList low),
   ("(mysql\\.user)", fun low => containsSub "mysql.user".toList low),
   ("(into\\s+outfile)", fun low => hasIntoOutfile low),
   ("(load_file)", fun low => containsSub "load_file".toList low),
   ("(@@)", fun low => containsSub "@@".toList low),
   ("(script)", fun low => containsSub "script".toList low),
   ("(javascript)", fun low => containsSub "javascript".toList low),
   ("(vbscript)", fun low => containsSub "vbscript".toList low)]

/-- `checkSuspiciousPatterns`: one error per matching pattern, in order. -/
def checkSuspiciousErrors (nq : List Char) : List String :=
  let low := toLowerL nq
  (suspiciousPatternList.filter fun pr => pr.2 low).map
    fun pr => "Suspicious pattern detected: " ++ pr.1

/-- The only error `performAdvancedValidation` can push: DELETE or UPDATE
without WHERE (its other checks produce warnings only; note the source does
not clear the validity flag here). -/
def advancedErrors (nq : List Char) : List String :=
  let low := toLowerL nq
  if (containsSub "delete".toList low || containsSub "update".toList low) &&
      !containsSub "where".toList low then
    ["DELETE/UPDATE without WHERE clause is not allowed"]
  else []

/-- `QueryValidator.validate`. The validity flag is cleared by the basic,
forbidden-keyword, leading-operation, and suspicious-pattern checks; the
advanced check appends its error without clearing the flag (as in the
source); the sanitized query is attached whenever the basic checks pass.
The JS try/catch around the body is dead here: no modelled check throws. -/
def validate (query : String) : ValidationResult :=
  match validateBasicInput query with
  | some err => { isValid := false, errors := [err], sanitizedQuery := none }
  | none =>
    let nq := normalizeL query.toList
    let forb := forbiddenKeywordErrors nq
    let op := allowedOpErrors nq
    let susp := checkSuspiciousErrors nq
    let adv := advancedErrors nq
    { isValid := forb.isEmpty && op.isEmpty && susp.isEmpty
      errors := forb ++ op ++ susp ++ adv
      sanitizedQuery := some ⟨nq⟩ }

end QueryValidator

/-- Untyped JS row values, as far as the executor inspects them: the name
`typeof` reports and whether the value is the null literal. -/
inductive JsVal
  | num (n : Int)
  | str (s : String)
  | boolV (b : Bool)
  | nullV
deriving Repr, DecidableEq

/-- JS `typeof` on the modelled values (`typeof null` is the string
"object"). -/
def JsVal.typeName : JsVal → String
  | .num _ => "number"
  | .str _ => "string"
  | .boolV _ => "boolean"
  | .nullV => "object"

/-- A result row: a JS object as an ordered association of column names to
values (`Object.keys` iterates in insertion order). -/
abbrev Row := List (String × JsVal)

/-- One entry of the `fields` list of a query result. -/
structure FieldInfo where
  name : String
  type : String
  nullable : Bool
deriving Repr, DecidableEq

/-- The metadata object attached to a non-row-set driver result (only its
`affectedRows` member is ever read by the executor). -/
structure DbMeta where
  affectedRows : Option Nat
deriving Repr, DecidableEq

/-- The shared `QueryResult` shape. `hasAnalysis` stands in for the presence
of the dry-run analysis object, whose payload no settled claim reads. -/
structure QueryResult where
  rows : List Row
  fields : List FieldInfo
  rowCount : Nat
  executionTime : Nat
  truncated : Option Bool := none
  totalRows : Option Nat := none
  metadata : Option DbMeta := none
  cached : Option Bool := none
  cacheAge : Option Nat := none
  dryRun : Option Bool := none
  hasAnalysis : Bool := false
deriving Repr, DecidableEq

namespace QueryExecutor

/-- The options record of `executeQuery`; absent members are `none`
(JS `undefined`). -/
structure QueryOptions where
  timeout : Option Nat := none
  maxRows : Option Nat := none
  enableAudit : Option Bool := none
  dryRun : Option Bool := none
deriving Repr, DecidableEq

/-- JS `a || b` on an optional number: both `undefined` and `0` fall through
to the default. -/
def jsOrNat : Option Nat → Nat → Nat
  | some v, d => if v == 0 then d else v
  | none, d => d

/-- JS truthiness of an optional boolean. -/
def jsTruthy (o : Option Bool) : Bool := o == some true

/-- How the awaited race of the database call against the timeout timer
resolves, decided by the environment: a row set, a non-row-set payload, a
driver rejection, or the timer winning. -/
inductive DbBehavior
  | rows (rs : List Row)
  | nonRows (meta : DbMeta)
  | fail (msg : String)
  | timeout
deriving Repr, DecidableEq

/-- `QueryExecutor.extractFields`: field metadata from the keys of the first
row, with `typeof` of the value and nullability from a null value. -/
def extractFields (results : List Row) : List FieldInfo :=
  match results with
  | [] => []
  | firstRow :: _ =>
    firstRow.map fun kv =>
      { name := kv.1, type := kv.2.typeName, nullable := kv.2 == JsVal.nullV }

/-- `executeQueryInternal` on an already-resolved database call: a row set is
sliced to `maxRows` with the truncation markers; anything else is returned
empty with the raw payload as metadata and `affectedRows` as the count. The
execution time is stamped by the caller. -/
def executeQueryInternal (outcome : DbBehavior) (maxRows : Nat) : QueryResult :=
  match outcome with
  | .rows results =>
    { rows := results.take maxRows
      fields := extractFields results
      rowCount := results.length
      executionTime := 0
      truncated := some (decide (maxRows < results.length))
      totalRows := some results.length }
  | .nonRows meta =>
    { rows := []
      fields := []
      rowCount := meta.affectedRows.getD 0
      executionTime := 0
      metadata := some meta }
  | .fail _ => { rows := [], fields := [], rowCount := 0, executionTime := 0 }
  | .timeout => { rows := [], fields := [], rowCount := 0, executionTime := 0 }

/-- `executeWithTimeout`: the race. A winning timer rejects with the timeout
message; a driver rejection propagates; a resolution is shaped by
`executeQueryInternal` and stamped with the elapsed time. -/
def executeWithTimeout (behavior : DbBehavior) (timeout maxRows elapsed : Nat) :
    Except String QueryResult :=
  match behavior with
  | .timeout => .error ("Query timeout after " ++ toString timeout ++ "ms")
  | .fail msg => .error msg
  | .rows rs => .ok { executeQueryInternal (.rows rs) maxRows with executionTime := elapsed }
  | .nonRows m => .ok { executeQueryInternal (.nonRows m) maxRows with executionTime := elapsed }

/-- One entry of the executor result cache. -/
structure QueryCacheEntry where
  key : String
  result : QueryResult
  timestamp : Nat
  ttl : Nat
deriving Repr, DecidableEq

/-- The executor result cache (a JS `Map` as an insertion-ordered
association list). -/
abbrev QueryCache := List (String × QueryCacheEntry)

/-- JS `Map.get`. -/
def mapGet {β : Type} (m : List (String × β)) (k : String) : Option β :=
  (m.find? fun kv => kv.1 == k).map fun kv => kv.2

/-- JS `Map.delete`. -/
def mapDelete {β : Type} (m : List (String × β)) (k : String) : List (String × β) :=
  m.filter fun kv => kv.1 != k

/-- JS `Map.set`: overwrite in place, or append a new entry. -/
def assocSet {β : Type} : List (String × β) → String → β → List (String × β)
  | [], k, v => [(k, v)]
  | (k', v') :: rest, k, v =>
    if k' == k then (k, v) :: rest else (k', v') :: assocSet rest k v

mutual

/-- Worker for the cache-key replace. The source regex escapes the backslash,
so it matches a literal backslash followed by a run of the letter s, not
whitespace; this scans outside such a run. -/
def replaceBsS : List Char → List Char
  | [] => []
  | '\\' :: 's' :: cs2 => ' ' :: skipBsS cs2
  | c :: cs => c :: replaceBsS cs

/-- Worker for the cache-key replace, inside the greedy run of the
letter s. -/
def skipBsS : List Char → List Char
  | [] => []
  | 's' :: cs => skipBsS cs
  | '\\' :: 's' :: cs2 => ' ' :: skipBsS cs2
  | c :: cs => c :: replaceBsS cs

end

/-- A minimal `JSON.stringify` for parameter values (string escaping is not
modelled; the parameters exercised here need none). -/
def jsonOfVal : JsVal → String
  | .num n => toString n
  | .str s => "\"" ++ s ++ "\""
  | .boolV b => if b then "true" else "false"
  | .nullV => "null"

/-- `JSON.stringify` of the parameter array (always an array here, hence
always truthy in the source). -/
def jsonOfParams (ps : List JsVal) : String :=
  "[" ++ String.intercalate "," (ps.map jsonOfVal) ++ "]"

/-- `generateCacheKey`. -/
def generateCacheKey (query : String) (parameters : List JsVal) : String :=
  ⟨toLowerL (jsTrim (replaceBsS query.toList))⟩ ++ ":" ++ jsonOfParams parameters

/-- `getCachedResult`: a hit returns a copy flagged as cached together with
its age; an expired entry is deleted on lookup. -/
def getCachedResult (cache : QueryCache) (cacheKey : String) (now : Nat) :
    Option QueryResult × QueryCache :=
  match mapGet cache cacheKey with
  | none => (none, cache)
  | some entry =>
    if entry.ttl < now - entry.timestamp then (none, mapDelete cache cacheKey)
    else
      (some { entry.result with cached := some true, cacheAge := some (now - entry.timestamp) },
       cache)

/-- The non-deterministic calls that exclude a query from the cache. -/
def nonDeterministicFunctions : List String := ["NOW()", "RAND()", "UUID()", "CONNECTION_ID()"]

/-- `shouldCacheQuery`: only SELECT statements free of the listed calls. -/
def shouldCacheQuery (query : String) : Bool :=
  let queryUpper := jsTrim (toUpperL query.toList)
  startsWithL "SELECT".toList queryUpper &&
    !(nonDeterministicFunctions.any fun func => containsSub func.toList queryUpper)

/-- `cleanCache`: drop the expired entries. -/
def cleanCache (cache : QueryCache) (now : Nat) : QueryCache :=
  cache.filter fun kv => !(kv.2.ttl < now - kv.2.timestamp)

/-- The executor cache TTL (five minutes). -/
def cacheTTL : Nat := 5 * 60 * 1000

/-- `cacheResult`: store small row-set results only, then clean
opportunistically once the cache is large. -/
def cacheResult (cache : QueryCache) (cacheKey : String) (result : QueryResult) (now : Nat) :
    QueryCache :=
  if result.rowCount ≤ 1000 && result.metadata == none then
    let c := assocSet cache cacheKey
      { key := cacheKey, result := result, timestamp := now, ttl := cacheTTL }
    if 100 < c.length then cleanCache c now else c
  else cache

/-- One audit entry. -/
structure AuditLog where
  timestamp : Nat
  query : String
  executionTime : Nat
  rowCount : Nat
  success : Bool
  errorMessage : Option String := none
  userAgent : String := "mcp-client"
  ipAddress : String := "localhost"
deriving Repr, DecidableEq

/-- `logAudit`: append a (length-truncated) entry and keep the last thousand. -/
def logAudit (logs : List AuditLog) (now : Nat) (query : String)
    (executionTime rowCount : Nat) (success : Bool) (errorMessage : Option String) :
    List AuditLog :=
  let entry : AuditLog :=
    { timestamp := now, query := ⟨query.toList.take 1000⟩, executionTime := executionTime,
      rowCount := rowCount, success := success, errorMessage := errorMessage }
  let logs' := logs ++ [entry]
  if 1000 < logs'.length then logs'.drop (logs'.length - 1000) else logs'

instance {ε α : Type} [DecidableEq ε] [DecidableEq α] : DecidableEq (Except ε α) := fun x y =>
  match x, y with
  | .ok a, .ok b => if h : a = b then .isTrue (by rw [h]) else .isFalse (by simp [h])
  | .error a, .error b => if h : a = b then .isTrue (by rw [h]) else .isFalse (by simp [h])
  | .ok _, .error _ => .isFalse (by simp)
  | .error _, .ok _ => .isFalse (by simp)

/-- Everything one `executeQuery` call returns and mutates: the JS return or
throw, the cache and audit ring afterwards, and how often the underlying
`database.query` was invoked. -/
structure ExecOutcome where
  result : Except String QueryResult
  cache : QueryCache
  auditLogs : List AuditLog
  dbCalls : Nat
deriving Repr, DecidableEq

/-- `QueryExecutor.executeQuery`. `now` abstracts the clock at entry and
`elapsed` the wall time the awaited work took; `behavior` is how the raced
database call resolves for this statement (the sanitized text is what the
source passes down, which the behavior parameter already abstracts). A
validation failure is thrown inside the try block, so it reaches the catch:
it is audited and re-thrown wrapped, before any cache or database access. -/
def executeQuery (query : String) (parameters : List JsVal) (options : QueryOptions)
    (cache : QueryCache) (auditLogs : List AuditLog) (behavior : DbBehavior)
    (now elapsed : Nat) : ExecOutcome :=
  let timeout := jsOrNat options.timeout securityConfig.maxExecutionTime
  let maxRows := jsOrNat options.maxRows securityConfig.maxResultRows
  let validation := QueryValidator.validate query
  if !validation.isValid then
    let errorMessage := "Query validation failed: " ++ String.intercalate ", " validation.errors
    let logs :=
      if options.enableAudit != some false then
        logAudit auditLogs now query elapsed 0 false (some errorMessage)
      else auditLogs
    { result := .error ("Query execution failed: " ++ errorMessage)
      cache := cache, auditLogs := logs, dbCalls := 0 }
  else
    let cacheKey := generateCacheKey query parameters
    let looked := getCachedResult cache cacheKey now
    match looked.1, jsTruthy options.dryRun with
    | some c, false =>
      { result := .ok c, cache := looked.2, auditLogs := auditLogs, dbCalls := 0 }
    | _, true =>
      { result := .ok
          { rows := [], fields := [], rowCount := 0, executionTime := elapsed,
            cached := some false, dryRun := some true, hasAnalysis := true }
        cache := looked.2, auditLogs := auditLogs, dbCalls := 0 }
    | none, false =>
      match executeWithTimeout behavior timeout maxRows elapsed with
      | .ok result =>
        let cache2 :=
          if shouldCacheQuery query then cacheResult looked.2 cacheKey result (now + elapsed)
          else looked.2
        let logs :=
          if options.enableAudit != some false then
            logAudit auditLogs (now + elapsed) query result.executionTime result.rowCount
              true none
          else auditLogs
        { result := .ok result, cache := cache2, auditLogs := logs, dbCalls := 1 }
      | .error msg =>
        let logs :=
          if options.enableAudit != some false then
            logAudit auditLogs (now + elapsed) query elapsed 0 false (some msg)
          else auditLogs
        { result := .error ("Query execution failed: " ++ msg)
          cache := looked.2, auditLogs := logs, dbCalls := 1 }

end QueryExecutor

/-- The adapter metric counters mutated by `updateMetrics` (the two derived
ratio fields are recomputed from these and are not read by any claim). -/
structure AdapterMetrics where
  queriesExecuted : Nat
  totalExecutionTime : Nat
  errorCount : Nat
deriving Repr, DecidableEq

/-- The mutable `connectionStatus` of an adapter (the timestamp and uptime
members are not read by any claim). -/
structure ConnectionStatus where
  isConnected : Bool
  connectionCount : Nat
  activeQueries : Int
deriving Repr, DecidableEq

/-- The mutable state of a MySQL adapter as `query` touches it:
`poolPresent` is whether the pool member is non-null. -/
structure AdapterState where
  poolPresent : Bool
  isShuttingDown : Bool
  connectionStatus : ConnectionStatus
  metrics : AdapterMetrics
  metricsEnabled : Bool
deriving Repr, DecidableEq

/-- How the driver `pool.execute` resolves for one statement. -/
inductive DriverOutcome
  | ok (rows : List Row) (fields : List FieldInfo)
  | err (msg : String)
deriving Repr, DecidableEq

namespace MySQLAdapter

/-- `updateMetrics` (counter part; the derived average and success rate are
recomputed from these counters). -/
def updateMetrics (st : AdapterState) (success : Bool) (executionTime : Nat) : AdapterState :=
  if !st.metricsEnabled then st
  else
    { st with
      metrics :=
        { queriesExecuted := st.metrics.queriesExecuted + 1
          totalExecutionTime := st.metrics.totalExecutionTime + executionTime
          errorCount := st.metrics.errorCount + (if success then 0 else 1) } }

/-- The counter bump at the top of `MySQLAdapter.query` (`activeQueries++`
before dispatching to the pool). -/
def enterQuery (st : AdapterState) : AdapterState :=
  { st with
    connectionStatus :=
      { st.connectionStatus with activeQueries := st.connectionStatus.activeQueries + 1 } }

/-- The finally block of `MySQLAdapter.query` (`activeQueries--`). -/
def exitQuery (st : AdapterState) : AdapterState :=
  { st with
    connectionStatus :=
      { st.connectionStatus with activeQueries := st.connectionStatus.activeQueries - 1 } }

/-- `MySQLAdapter.query`: the two guard clauses, the counter increment, the
driver call, the metrics update on each branch, and the decrement in the
finally block. The adapter attaches an informational metadata object to
every result; its payload is not read by any claim. -/
def query (st : AdapterState) (sql : String) (outcome : DriverOutcome) (elapsed : Nat) :
    Except String QueryResult × AdapterState :=
  if !st.poolPresent then (.error "MySQL adapter not connected", st)
  else if st.isShuttingDown then (.error "MySQL adapter is shutting down", st)
  else
    let st1 := enterQuery st
    match outcome with
    | .ok rows fields =>
      let st2 := updateMetrics st1 true elapsed
      let result : QueryResult :=
        { rows := rows, fields := fields, rowCount := rows.length,
          executionTime := elapsed, metadata := some { affectedRows := none } }
      (.ok result, exitQuery st2)
    | .err msg => (.error msg, exitQuery (updateMetrics st1 false elapsed))

end MySQLAdapter

/-- The database type tags known to the factory. -/
inductive DatabaseType
  | mysql
  | postgresql
deriving Repr, DecidableEq

/-- The slice of a connection config that `detectDatabaseType` reads; absent
members are `none` (JS `undefined`). -/
structure DatabaseConfig where
  type : Option DatabaseType := none
  host : Option String := none
  port : Option Nat := none
deriving Repr, DecidableEq

namespace DatabaseAdapterFactory

/-- Optional chaining `config.host?.includes(sub)` (an absent host yields a
falsy result). -/
def hostIncludes (config : DatabaseConfig) (sub : String) : Bool :=
  match config.host with
  | none => false
  | some h => containsSub sub.toList h.toList

/-- `DatabaseAdapterFactory.detectDatabaseType`: the explicit type when set;
otherwise the first matching guess clause — MySQL port or a host containing
the substring mysql, then PostgreSQL port or a host containing the substring
postgres — and MySQL as the fallback. -/
def detectDatabaseType (config : DatabaseConfig) : DatabaseType :=
  match config.type with
  | some t => t
  | none =>
    if config.port == some 3306 || hostIncludes config "mysql" then .mysql
    else if config.port == some 5432 || hostIncludes config "postgres" then .postgresql
    else .mysql

end DatabaseAdapterFactory

/-- One input item of the cross-database tool. -/
structure CrossQueryItem where
  database : String
  query : String
  «alias» : Option String := none
deriving Repr, DecidableEq

/-- What one adapter `query` call resolves to (the members the handler
reads). -/
structure AdapterQueryResult where
  executionTime : Nat
  rowCount : Nat
  rows : List Row
  fields : List FieldInfo
deriving Repr, DecidableEq

/-- One labeled item of the cross-database response. -/
structure CrossItemResult where
  database : String
  «alias» : String
  query : String
  executionTime : Nat
  rowCount : Nat
  rows : List Row
  fields : List FieldInfo
deriving Repr, DecidableEq

/-- The summary block of the cross-database response. -/
structure CrossSummary where
  totalQueries : Nat
  totalRows : Nat
  totalExecutionTime : Nat
deriving Repr, DecidableEq

/-- The cross-database response. -/
structure CrossResponse where
  summary : CrossSummary
  results : List CrossItemResult
deriving Repr, DecidableEq

namespace MultiDatabaseMCPServer

/-- JS `a || b` on an optional string (an empty alias falls back too). -/
def jsOrStr : Option String → String → String
  | some s, d => if s == "" then d else s
  | none, d => d

/-- The query excerpt `substring(0, 100)` plus an ellipsis for longer text. -/
def queryExcerpt (q : String) : String :=
  ⟨q.toList.take 100⟩ ++ (if 100 < q.toList.length then "..." else "")

/-- One mapped item of the `Promise.all` inside `handleCrossDatabaseQuery`. -/
def crossItem (item : CrossQueryItem) (r : AdapterQueryResult) : CrossItemResult :=
  { database := item.database
    «alias» := jsOrStr item.«alias» item.database
    query := queryExcerpt item.query
    executionTime := r.executionTime
    rowCount := r.rowCount
    rows := r.rows
    fields := r.fields }

/-- The mapped `Promise.all` of the handler: every item resolves through the
adapter registry (`adapters database query` abstracts
`connectionManager.getConnection(database)` followed by `adapter.query`,
folding a thrown lookup failure and a rejected query into the error case);
the combined promise rejects as soon as any item rejects. -/
def crossMapM (adapters : String → String → Except String AdapterQueryResult) :
    List CrossQueryItem → Except String (List CrossItemResult)
  | [] => .ok []
  | item :: rest => do
    let r ← adapters item.database item.query
    let rs ← crossMapM adapters rest
    pure (crossItem item r :: rs)

/-- `MultiDatabaseMCPServer.handleCrossDatabaseQuery`. -/
def handleCrossDatabaseQuery (adapters : String → String → Except String AdapterQueryResult)
    (queries : List CrossQueryItem) : Except String CrossResponse := do
  if queries.isEmpty then throw "Queries array is required"
  let results ← crossMapM adapters queries
  pure
    { summary :=
        { totalQueries := results.length
          totalRows := results.foldl (fun sum r => sum + r.rowCount) 0
          totalExecutionTime := results.foldl (fun sum r => sum + r.executionTime) 0 }
      results := results }

end MultiDatabaseMCPServer

/-- The table slice the warm-up reads from the analyzed schema. -/
structure WarmTableInfo where
  name : String
  rowCount : Option Nat := none
deriving Repr, DecidableEq

/-- The schema slice the warm-up reads. -/
structure WarmSchema where
  tables : List WarmTableInfo
deriving Repr, DecidableEq

/-- The payloads the warm-up stores into the schema cache (opaque where no
claim reads them). -/
inductive CachePayload
  | info (payload : String)
  | schema (s : WarmSchema)
  | table (t : WarmTableInfo)
  | profile (payload : String)
  | relationships (r : List (String × List String))
deriving Repr, DecidableEq

/-- The analyzer as the warm-up consumes it: three awaited prefetches, each
resolving or rejecting. -/
structure AnalyzerModel where
  getDatabaseInfo : Except String String
  analyzeFullSchema : Except String WarmSchema
  getTableRelationships : Except String (List (String × List String))

namespace SchemaCache

/-- The per-table loop of the warm-up: cache the table info for every table,
and for tables under ten thousand rows fetch a shallow profile inside the
only try/catch of the loop — its failure is logged and swallowed. The cache
setter never throws (its eviction bookkeeping is irrelevant to, and omitted
from, the control flow settled here). -/
def warmupTables (databaseName : String) (profiler : String → Except String (Option String))
    (cache : List (String × CachePayload)) :
    List WarmTableInfo → List (String × CachePayload)
  | [] => cache
  | table :: rest =>
    let c1 := QueryExecutor.assocSet cache
      ("table:" ++ databaseName ++ ":" ++ table.name) (.table table)
    let c2 :=
      if table.rowCount.getD 0 < 10000 then
        match profiler table.name with
        | .ok (some payload) =>
          QueryExecutor.assocSet c1
            ("profile:" ++ databaseName ++ ":" ++ table.name) (.profile payload)
        | .ok none => c1
        | .error _ => c1
      else c1
    warmupTables databaseName profiler c2 rest

/-- `SchemaCache.warmup`: prefetch database info, full schema, relationships,
then run the per-table loop. The outer try/catch logs and re-throws, so a
rejection from any of the three analyzer prefetches propagates out of
`warmup`; only the per-table profile fetch is shielded. -/
def warmup (databaseName : String) (analyzer : AnalyzerModel)
    (profiler : String → Except String (Option String))
    (cache : List (String × CachePayload)) :
    Except String (List (String × CachePayload)) := do
  let dbInfo ← analyzer.getDatabaseInfo
  let c1 := QueryExecutor.assocSet cache ("dbinfo:" ++ databaseName) (.info dbInfo)
  let schema ← analyzer.analyzeFullSchema
  let c2 := QueryExecutor.assocSet c1 ("schema:" ++ databaseName) (.schema schema)
  let relationships ← analyzer.getTableRelationships
  let c3 := QueryExecutor.assocSet c2
    ("relationships:" ++ databaseName) (.relationships relationships)
  pure (warmupTables databaseName profiler c3 schema.tables)

end SchemaCache

/-- Adjacency discipline of collapsed text: no two consecutive whitespace
characters. -/
def adjOK : List Char → Bool
  | [] => true
  | [_] => true
  | a :: b :: rest => !(isJsSpace a && isJsSpace b) && adjOK (b :: rest)

/-- A two-pool adapter registry where the first pool answers and the second
rejects, exercising the mixed-outcome cross-database call. -/
def crossDemoAdapters : String → String → Except String AdapterQueryResult := fun db _ =>
  if db = "a" then .ok { executionTime := 5, rowCount := 3, rows := [], fields := [] }
  else .error "Connection lost"

/-- An analyzer whose database-info prefetch rejects while the other two
resolve. -/
def failingAnalyzer : AnalyzerModel :=
  { getDatabaseInfo := .error "getDatabaseInfo failed"
    analyzeFullSchema := .ok { tables := [] }
    getTableRelationships := .ok [] }

/-- An analyzer whose three prefetches all resolve, over a one-table
schema. -/
def okAnalyzer : AnalyzerModel :=
  { getDatabaseInfo := .ok "info"
    analyzeFullSchema := .ok { tables := [{ name := "users", rowCount := some 42 }] }
    getTableRelationships := .ok [("users", [])] }

section Lemmas

/-- The empty pattern starts everything. -/
theorem startsWithL_nil (l : List Char) : startsWithL [] l = true := by
  cases l <;> rfl

/-- The empty pattern occurs everywhere. -/
theorem containsSub_nil (l : List Char) : containsSub [] l = true := by
  induction l with
  | nil => rfl
  | cons c cs ih => simp [containsSub, startsWithL_nil, ih]

/-- Starting-with is transitive. -/
theorem startsWithL_trans {a b c : List Char} (h1 : startsWithL a b = true)
    (h2 : startsWithL b c = true) : startsWithL a c = true := by
  induction a generalizing b c with
  | nil => exact startsWithL_nil c
  | cons x xs ih =>
    cases b with
    | nil => simp [startsWithL] at h1
    | cons y ys =>
      cases c with
      | nil => simp [startsWithL] at h2
      | cons z zs =>
        simp [startsWithL] at h1 h2 ⊢
        exact ⟨h1.1.trans h2.1, ih h1.2 h2.2⟩

/-- A singleton pattern occurs exactly at its member positions. -/
theorem containsSub_singleton {c : Char} {l : List Char} :
    containsSub [c] l = true ↔ c ∈ l := by
  induction l with
  | nil => simp [containsSub]
  | cons d ds ih =>
    simp [containsSub, startsWithL, startsWithL_nil, ih]

/-- Occurrence inside a starting segment is occurrence in the whole. -/
theorem containsSub_of_startsWithL {n s l : List Char} (hs : startsWithL s l = true)
    (h : containsSub n s = true) : containsSub n l = true := by
  induction s generalizing l with
  | nil =>
    simp [containsSub] at h
    subst h
    exact containsSub_nil l
  | cons c cs ih =>
    cases l with
    | nil => simp [startsWithL] at hs
    | cons d ds =>
      simp only [startsWithL, Bool.and_eq_true, beq_iff_eq] at hs
      simp only [containsSub, Bool.or_eq_true] at h ⊢
      rcases h with h | h
      · refine Or.inl (startsWithL_trans h ?_)
        simp [startsWithL, hs.1, hs.2]
      · exact Or.inr (ih hs.2 h)

/-- Occurrence survives undoing a dropWhile. -/
theorem containsSub_dropWhile {n : List Char} {p : Char → Bool} {l : List Char}
    (h : containsSub n (l.dropWhile p) = true) : containsSub n l = true := by
  induction l with
  | nil => simpa using h
  | cons c cs ih =>
    by_cases hc : p c
    · rw [List.dropWhile_cons_of_pos hc] at h
      simp only [containsSub, Bool.or_eq_true]
      exact Or.inr (ih h)
    · rwa [List.dropWhile_cons_of_neg hc] at h

/-- The right-trimmed list is a starting segment of the original. -/
theorem startsWithL_trimRight (l : List Char) : startsWithL (trimRight l) l = true := by
  induction l with
  | nil => rfl
  | cons c cs ih =>
    cases h : trimRight cs with
    | nil =>
      by_cases hc : isJsSpace c
      · simp [trimRight, h, hc, startsWithL_nil]
      · simp [trimRight, h, hc, startsWithL, startsWithL_nil]
    | cons x xs =>
      rw [h] at ih
      simp [trimRight, h, startsWithL, ih]

/-- Occurrence survives undoing a right trim. -/
theorem containsSub_trimRight {n l : List Char}
    (h : containsSub n (trimRight l) = true) : containsSub n l = true :=
  containsSub_of_startsWithL (startsWithL_trimRight l) h

/-- Occurrence survives undoing the JS trim. -/
theorem containsSub_jsTrim {n l : List Char}
    (h : containsSub n (jsTrim l) = true) : containsSub n l = true :=
  containsSub_dropWhile (containsSub_trimRight h)

/-- Members of the right-trimmed list are members of the original. -/
theorem mem_trimRight {c : Char} {l : List Char} (h : c ∈ trimRight l) : c ∈ l := by
  induction l with
  | nil => simp [trimRight] at h
  | cons d ds ih =>
    cases hd : trimRight ds with
    | nil =>
      cases hs : isJsSpace d
      · simp [trimRight, hd, hs] at h
        simp [h]
      · simp [trimRight, hd, hs] at h
    | cons x xs =>
      simp only [trimRight, hd] at h
      rcases List.mem_cons.mp h with h | h
      · simp [h]
      · exact List.mem_cons_of_mem _ (ih (hd ▸ h))

/-- Members of the trimmed list are members of the original. -/
theorem mem_jsTrim {c : Char} {l : List Char} (h : c ∈ jsTrim l) : c ∈ l :=
  (List.dropWhile_sublist _).subset (mem_trimRight h)

/-- A nonempty right trim starts at the original head. -/
theorem trimRight_head {l : List Char} {x : Char} {xs : List Char}
    (h : trimRight l = x :: xs) : ∃ ys, l = x :: ys := by
  cases l with
  | nil => simp [trimRight] at h
  | cons d ds =>
    cases hd : trimRight ds with
    | nil =>
      cases hs : isJsSpace d
      · simp [trimRight, hd, hs] at h
        exact ⟨ds, by rw [h.1]⟩
      · simp [trimRight, hd, hs] at h
    | cons y ys =>
      simp only [trimRight, hd] at h
      injection h with h1 h2
      exact ⟨ds, by rw [h1]⟩

/-- Right-trimming is idempotent. -/
theorem trimRight_idem (l : List Char) : trimRight (trimRight l) = trimRight l := by
  induction l with
  | nil => rfl
  | cons c cs ih =>
    cases h : trimRight cs with
    | nil =>
      cases hs : isJsSpace c
      · simp [trimRight, h, hs]
      · simp [trimRight, h, hs]
    | cons x xs =>
      have h1 : trimRight (c :: cs) = c :: x :: xs := by simp [trimRight, h]
      have h2 : trimRight (x :: xs) = x :: xs := by rw [← h]; exact ih
      rw [h1, trimRight.eq_2, h2]

/-- The head of a dropWhile result falsifies the predicate. -/
theorem dropWhile_head_false {p : Char → Bool} {l : List Char} {c : Char} {cs : List Char}
    (h : l.dropWhile p = c :: cs) : p c = false := by
  induction l with
  | nil => simp at h
  | cons d ds ih =>
    cases hd : p d with
    | false =>
      rw [List.dropWhile_cons_of_neg (by simp [hd])] at h
      injection h with h1 h2
      rw [← h1]
      exact hd
    | true =>
      rw [List.dropWhile_cons_of_pos hd] at h
      exact ih h

/-- The space character is JS whitespace. -/
theorem isJsSpace_space : isJsSpace ' ' = true := by decide

/-- A two-character pattern of non-whitespace characters occurring in the
collapsed text already occurred in the original: the collapse only deletes
whitespace inside runs and emits spaces, so it cannot create such a pair. -/
theorem containsSub_collapse_pair {a b : Char} (ha : isJsSpace a = false)
    (hb : isJsSpace b = false) (l : List Char) :
    (containsSub [a, b] (collapseWSAux l) = true → containsSub [a, b] l = true) ∧
    (containsSub [a, b] (collapseSkip l) = true → containsSub [a, b] l = true) := by
  induction l with
  | nil => simp [collapseWSAux, collapseSkip]
  | cons c cs ih =>
    have hstep : startsWithL [a, b] (c :: collapseWSAux cs) = true →
        containsSub [a, b] (c :: cs) = true := by
      intro hsw
      simp only [startsWithL, Bool.and_eq_true, beq_iff_eq] at hsw
      obtain ⟨hac, hsw⟩ := hsw
      cases cs with
      | nil => simp [collapseWSAux, startsWithL] at hsw
      | cons d ds =>
        cases hd : isJsSpace d with
        | true =>
          rw [collapseWSAux, if_pos hd] at hsw
          simp only [startsWithL, Bool.and_eq_true, beq_iff_eq] at hsw
          rw [hsw.1] at hb
          rw [isJsSpace_space] at hb
          exact absurd hb (by simp)
        | false =>
          rw [collapseWSAux, if_neg (by simp [hd])] at hsw
          simp only [startsWithL, Bool.and_eq_true, beq_iff_eq] at hsw
          simp [containsSub, startsWithL, hac, hsw.1, startsWithL_nil]
    constructor
    · intro h
      cases hc : isJsSpace c with
      | true =>
        rw [collapseWSAux, if_pos hc] at h
        simp only [containsSub, Bool.or_eq_true] at h ⊢
        rcases h with h | h
        · simp only [startsWithL, Bool.and_eq_true, beq_iff_eq] at h
          rw [h.1, isJsSpace_space] at ha
          exact absurd ha (by simp)
        · exact Or.inr (ih.2 h)
      | false =>
        rw [collapseWSAux, if_neg (by simp [hc])] at h
        simp only [containsSub, Bool.or_eq_true] at h
        rcases h with h | h
        · exact hstep h
        · simp only [containsSub, Bool.or_eq_true]
          exact Or.inr (ih.1 h)
    · intro h
      cases hc : isJsSpace c with
      | true =>
        rw [collapseSkip, if_pos hc] at h
        simp only [containsSub, Bool.or_eq_true]
        exact Or.inr (ih.2 h)
      | false =>
        rw [collapseSkip, if_neg (by simp [hc])] at h
        simp only [containsSub, Bool.or_eq_true] at h
        rcases h with h | h
        · exact hstep h
        · simp only [containsSub, Bool.or_eq_true]
          exact Or.inr (ih.1 h)

/-- Every whitespace character in collapsed text is the plain space. -/
theorem mem_collapse_space {c : Char} (hc : isJsSpace c = true) (hne : c ≠ ' ')
    (l : List Char) : (c ∉ collapseWSAux l) ∧ (c ∉ collapseSkip l) := by
  induction l with
  | nil => simp [collapseWSAux, collapseSkip]
  | cons d ds ih =>
    constructor
    · cases hd : isJsSpace d with
      | true =>
        rw [collapseWSAux, if_pos hd]
        intro hmem
        rcases List.mem_cons.mp hmem with h | h
        · exact hne h
        · exact ih.2 h
      | false =>
        rw [collapseWSAux, if_neg (by simp [hd])]
        intro hmem
        rcases List.mem_cons.mp hmem with h | h
        · rw [h] at hc
          rw [hc] at hd
          exact absurd hd (by simp)
        · exact ih.1 h
    · cases hd : isJsSpace d with
      | true =>
        rw [collapseSkip, if_pos hd]
        exact ih.2
      | false =>
        rw [collapseSkip, if_neg (by simp [hd])]
        intro hmem
        rcases List.mem_cons.mp hmem with h | h
        · rw [h] at hc
          rw [hc] at hd
          exact absurd hd (by simp)
        · exact ih.1 h

/-- Heads of the in-run collapse are never whitespace. -/
theorem collapseSkip_head {l : List Char} {c : Char} {cs : List Char}
    (h : collapseSkip l = c :: cs) : isJsSpace c = false := by
  induction l with
  | nil => simp [collapseSkip] at h
  | cons d ds ih =>
    cases hd : isJsSpace d with
    | true =>
      rw [collapseSkip, if_pos hd] at h
      exact ih h
    | false =>
      rw [collapseSkip, if_neg (by simp [hd])] at h
      injection h with h1 h2
      rw [← h1]
      exact hd

/-- Collapsed text never has two adjacent whitespace characters. -/
theorem adjOK_collapse (l : List Char) :
    adjOK (collapseWSAux l) = true ∧ adjOK (collapseSkip l) = true := by
  induction l with
  | nil => simp [collapseWSAux, collapseSkip, adjOK]
  | cons c cs ih =>
    have haux : ∀ x, isJsSpace x = false → adjOK (x :: collapseWSAux cs) = true := by
      intro x hx
      cases hW : collapseWSAux cs with
      | nil => simp [adjOK]
      | cons y ys =>
        have : adjOK (y :: ys) = true := hW ▸ ih.1
        simp [adjOK, hx, this]
    constructor
    · cases hc : isJsSpace c with
      | true =>
        rw [collapseWSAux, if_pos hc]
        cases hS : collapseSkip cs with
        | nil => simp [adjOK]
        | cons y ys =>
          have hy : isJsSpace y = false := collapseSkip_head hS
          have : adjOK (y :: ys) = true := hS ▸ ih.2
          simp [adjOK, hy, this]
      | false =>
        rw [collapseWSAux, if_neg (by simp [hc])]
        exact haux c hc
    · cases hc : isJsSpace c with
      | true =>
        rw [collapseSkip, if_pos hc]
        exact ih.2
      | false =>
        rw [collapseSkip, if_neg (by simp [hc])]
        exact haux c hc

/-- The adjacency discipline restricts to the tail. -/
theorem adjOK_tail {c : Char} {cs : List Char} (h : adjOK (c :: cs) = true) :
    adjOK cs = true := by
  cases cs with
  | nil => rfl
  | cons d ds =>
    simp only [adjOK, Bool.and_eq_true] at h
    exact h.2

/-- The adjacency discipline survives a dropWhile. -/
theorem adjOK_dropWhile {p : Char → Bool} {l : List Char} (h : adjOK l = true) :
    adjOK (l.dropWhile p) = true := by
  induction l with
  | nil => simpa using h
  | cons c cs ih =>
    cases hc : p c with
    | true =>
      rw [List.dropWhile_cons_of_pos hc]
      exact ih (adjOK_tail h)
    | false =>
      rwa [List.dropWhile_cons_of_neg (by simp [hc])]

/-- The adjacency discipline survives the right trim. -/
theorem adjOK_trimRight {l : List Char} (h : adjOK l = true) :
    adjOK (trimRight l) = true := by
  induction l with
  | nil => simpa [trimRight] using h
  | cons c cs ih =>
    cases hd : trimRight cs with
    | nil =>
      cases hs : isJsSpace c
      · simp [trimRight, hd, hs, adjOK]
      · simp [trimRight, hd, hs, adjOK]
    | cons x xs =>
      simp only [trimRight, hd]
      obtain ⟨ys, hys⟩ := trimRight_head hd
      have hx : adjOK (x :: xs) = true := hd ▸ ih (adjOK_tail h)
      have hpair : !(isJsSpace c && isJsSpace x) = true := by
        rw [hys] at h
        cases hsc : isJsSpace c with
        | false => simp
        | true =>
          simp only [adjOK, Bool.and_eq_true] at h
          have hx2 : isJsSpace x = false := by
            have := h.1
            rw [hsc] at this
            simpa using this
          simp [hsc, hx2]
      simp only [adjOK, Bool.and_eq_true]
      exact ⟨by simpa using hpair, hx⟩

/-- Text whose whitespace is single plain spaces with no adjacent pair is a
fixed point of the collapse. -/
theorem collapse_fixed {l : List Char} (hsp : ∀ c ∈ l, isJsSpace c = true → c = ' ')
    (hadj : adjOK l = true) : collapseWSAux l = l := by
  induction l with
  | nil => rfl
  | cons c cs ih =>
    have ihcs : collapseWSAux cs = cs :=
      ih (fun d hd => hsp d (List.mem_cons_of_mem _ hd)) (adjOK_tail hadj)
    cases hc : isJsSpace c with
    | true =>
      have hcsp : c = ' ' := hsp c (List.mem_cons_self _ _) hc
      rw [collapseWSAux, if_pos hc, ← hcsp]
      cases cs with
      | nil => rfl
      | cons d ds =>
        have hd : isJsSpace d = false := by
          simp only [adjOK, Bool.and_eq_true] at hadj
          have := hadj.1
          rw [hc] at this
          simpa using this
        rw [collapseSkip, if_neg (by simp [hd])]
        rw [collapseWSAux, if_neg (by simp [hd])] at ihcs
        rw [ihcs]
    | false =>
      rw [collapseWSAux, if_neg (by simp [hc]), ihcs]

/-- The collapse of nonempty text is nonempty. -/
theorem collapse_ne_nil {l : List Char} (h : l ≠ []) : collapseWSAux l ≠ [] := by
  cases l with
  | nil => exact absurd rfl h
  | cons c cs =>
    cases hc : isJsSpace c with
    | true => rw [collapseWSAux, if_pos hc]; simp
    | false => rw [collapseWSAux, if_neg (by simp [hc])]; simp

/-- A list with a non-whitespace member has a nonempty right trim. -/
theorem trimRight_ne_nil {l : List Char} {c : Char} (hmem : c ∈ l)
    (hc : isJsSpace c = false) : trimRight l ≠ [] := by
  induction l with
  | nil => simp at hmem
  | cons d ds ih =>
    cases hd : trimRight ds with
    | nil =>
      rcases List.mem_cons.mp hmem with h | h
      · rw [h] at hc
        simp [trimRight, hd, hc]
      · exact absurd hd (ih h)
    | cons x xs => simp [trimRight, hd]

/-- The collapse never lengthens text. -/
theorem length_collapse_le (l : List Char) :
    (collapseWSAux l).length ≤ l.length ∧ (collapseSkip l).length ≤ l.length := by
  induction l with
  | nil => simp [collapseWSAux, collapseSkip]
  | cons c cs ih =>
    constructor
    · cases hc : isJsSpace c with
      | true =>
        rw [collapseWSAux, if_pos hc]
        simpa using ih.2
      | false =>
        rw [collapseWSAux, if_neg (by simp [hc])]
        simpa using ih.1
    · cases hc : isJsSpace c with
      | true =>
        rw [collapseSkip, if_pos hc]
        exact ih.2.trans (by simp)
      | false =>
        rw [collapseSkip, if_neg (by simp [hc])]
        simpa using ih.1

/-- The right trim never lengthens text. -/
theorem length_trimRight_le (l : List Char) : (trimRight l).length ≤ l.length := by
  induction l with
  | nil => simp [trimRight]
  | cons c cs ih =>
    cases hd : trimRight cs with
    | nil =>
      cases hs : isJsSpace c <;> simp [trimRight, hd, hs]
    | cons x xs =>
      rw [hd] at ih
      simp only [trimRight, hd, List.length_cons]
      simpa using ih

/-- Dropping a leading segment never lengthens text. -/
theorem length_dropWhileChar_le (p : Char → Bool) (l : List Char) :
    (l.dropWhile p).length ≤ l.length := by
  induction l with
  | nil => simp
  | cons c cs ih =>
    cases hc : p c with
    | true =>
      rw [List.dropWhile_cons_of_pos hc]
      exact ih.trans (by simp)
    | false =>
      rw [List.dropWhile_cons_of_neg (by simp [hc])]

/-- The JS trim never lengthens text. -/
theorem length_jsTrim_le (l : List Char) : (jsTrim l).length ≤ l.length :=
  (length_trimRight_le _).trans (length_dropWhileChar_le _ l)

/-- A pattern that occurs nowhere cannot be split on. -/
theorem breakOnSub_none {n l : List Char} (h : containsSub n l = false) :
    breakOnSub n l = none := by
  induction l with
  | nil =>
    simp only [containsSub] at h
    simp [breakOnSub, h]
  | cons c cs ih =>
    simp only [containsSub, Bool.or_eq_false_iff] at h
    rw [breakOnSub, if_neg (by simp [h.1]), ih h.2]

/-- Splitting newline-free text yields the single accumulated line. -/
theorem splitLinesAux_no_nl {l : List Char} (h : '\n' ∉ l) (acc : List Char) :
    splitLinesAux l acc = [acc.reverse ++ l] := by
  induction l generalizing acc with
  | nil => simp [splitLinesAux]
  | cons c cs ih =>
    have hc : ¬(c == '\n') = true := by
      simp only [beq_iff_eq]
      intro hc
      exact h (by simp [hc])
    rw [splitLinesAux, if_neg hc, ih (fun hm => h (List.mem_cons_of_mem _ hm))]
    simp

/-- A carriage-return-free, dash-pair-free line is untouched by the
line-comment strip. -/
theorem stripLineOne_id {line : List Char} (hr : '\r' ∉ line)
    (hd : containsSub ['-', '-'] line = false) : stripLineOne line = line := by
  have hrev : containsSub ['\r'] line.reverse = false := by
    cases hmem : containsSub ['\r'] line.reverse with
    | false => rfl
    | true =>
      have := containsSub_singleton.mp hmem
      exact absurd (List.mem_reverse.mp this) hr
  rw [stripLineOne, breakOnSub_none hrev, dropFromDashes, breakOnSub_none hd]

/-- Newline-free, carriage-return-free, dash-pair-free text is untouched by
the line-comment strip. -/
theorem stripLineComments_id {l : List Char} (hn : '\n' ∉ l) (hr : '\r' ∉ l)
    (hd : containsSub ['-', '-'] l = false) : stripLineComments l = l := by
  rw [stripLineComments, splitLines, splitLinesAux_no_nl hn]
  simp only [List.reverse_nil, List.nil_append, List.map_cons, List.map_nil]
  rw [stripLineOne_id hr hd]
  rfl

/-- Text free of the block-comment opener is untouched by the block-comment
strip. -/
theorem stripBlockComments_id {l : List Char} (h : containsSub ['/', '*'] l = false) :
    stripBlockComments l = l := by
  rw [stripBlockComments]
  cases hl : l.length with
  | zero => rfl
  | succ n => rw [stripBlockAux, breakOnSub_none h]

/-- A two-character non-whitespace pattern absent from the input is absent
from the collapse of its trim. -/
theorem pair_absent_collapse_jsTrim {a b : Char} (ha : isJsSpace a = false)
    (hb : isJsSpace b = false) {l : List Char} (h : containsSub [a, b] l = false) :
    containsSub [a, b] (collapseWSAux (jsTrim l)) = false := by
  cases hc : containsSub [a, b] (collapseWSAux (jsTrim l)) with
  | false => rfl
  | true =>
    have := containsSub_jsTrim ((containsSub_collapse_pair ha hb (jsTrim l)).1 hc)
    rw [this] at h
    exact absurd h (by simp)

/-- On comment-free input, normalization is just trim and collapse: the two
comment strips find nothing to remove. -/
theorem normalizeL_no_comments {l : List Char}
    (hnd : containsSub ['-', '-'] l = false)
    (hnb : containsSub ['/', '*'] l = false) :
    QueryValidator.normalizeL l = jsTrim (collapseWSAux (jsTrim l)) := by
  have hnl : '\n' ∉ collapseWSAux (jsTrim l) :=
    (mem_collapse_space (by decide) (by decide) _).1
  have hcr : '\r' ∉ collapseWSAux (jsTrim l) :=
    (mem_collapse_space (by decide) (by decide) _).1
  have hd : containsSub ['-', '-'] (collapseWSAux (jsTrim l)) = false :=
    pair_absent_collapse_jsTrim (by decide) (by decide) hnd
  have hb : containsSub ['/', '*'] (collapseWSAux (jsTrim l)) = false :=
    pair_absent_collapse_jsTrim (by decide) (by decide) hnb
  rw [QueryValidator.normalizeL, stripLineComments_id hnl hcr hd, stripBlockComments_id hb]

/-- Trim-collapse-trim output is a fixed point of normalization. -/
theorem normalizeL_fixed_of_collapsed {l : List Char}
    (hnd : containsSub ['-', '-'] l = false)
    (hnb : containsSub ['/', '*'] l = false) :
    QueryValidator.normalizeL (jsTrim (collapseWSAux (jsTrim l)))
      = jsTrim (collapseWSAux (jsTrim l)) := by
  set u := collapseWSAux (jsTrim l) with hu
  set nq := jsTrim u with hnq
  have hsp : ∀ c ∈ nq, isJsSpace c = true → c = ' ' := by
    intro c hc hcs
    by_contra hne
    exact (mem_collapse_space hcs hne (jsTrim l)).1 (hu ▸ mem_jsTrim hc)
  have hadj : adjOK nq = true := by
    rw [hnq, jsTrim]
    exact adjOK_trimRight (adjOK_dropWhile (hu ▸ (adjOK_collapse (jsTrim l)).1))
  have hdw : nq.dropWhile isJsSpace = nq := by
    cases hq : nq with
    | nil => rfl
    | cons c cs =>
      have : trimRight (u.dropWhile isJsSpace) = c :: cs := by rw [← jsTrim, ← hnq, hq]
      obtain ⟨ys, hys⟩ := trimRight_head this
      have hc : isJsSpace c = false := dropWhile_head_false hys
      rw [List.dropWhile_cons_of_neg (by simp [hc])]
  have htr : jsTrim nq = nq := by
    rw [jsTrim, hdw, hnq, jsTrim, trimRight_idem]
  have hcoll : collapseWSAux nq = nq := collapse_fixed hsp hadj
  have hd2 : containsSub ['-', '-'] nq = false := by
    cases hx : containsSub ['-', '-'] nq with
    | false => rfl
    | true =>
      have := containsSub_jsTrim (l := u) (hnq ▸ hx)
      rw [pair_absent_collapse_jsTrim (by decide) (by decide) hnd] at this
      exact absurd this (by simp)
  have hb2 : containsSub ['/', '*'] nq = false := by
    cases hx : containsSub ['/', '*'] nq with
    | false => rfl
    | true =>
      have := containsSub_jsTrim (l := u) (hnq ▸ hx)
      rw [pair_absent_collapse_jsTrim (by decide) (by decide) hnb] at this
      exact absurd this (by simp)
  have hnl2 : '\n' ∉ nq := fun hm =>
    (mem_collapse_space (by decide) (by decide) (jsTrim l)).1 (hu ▸ mem_jsTrim hm)
  have hcr2 : '\r' ∉ nq := fun hm =>
    (mem_collapse_space (by decide) (by decide) (jsTrim l)).1 (hu ▸ mem_jsTrim hm)
  rw [QueryValidator.normalizeL, htr, hcoll, stripLineComments_id hnl2 hcr2 hd2,
    stripBlockComments_id hb2, htr]

/-- Trim-collapse-trim output is nonempty whenever the trimmed input is. -/
theorem collapsed_ne_nil {l : List Char} (h : jsTrim l ≠ []) :
    jsTrim (collapseWSAux (jsTrim l)) ≠ [] := by
  cases hq : jsTrim l with
  | nil => exact absurd hq h
  | cons c cs =>
    have hc : isJsSpace c = false := by
      have : trimRight (l.dropWhile isJsSpace) = c :: cs := by rw [← jsTrim, hq]
      obtain ⟨ys, hys⟩ := trimRight_head this
      exact dropWhile_head_false hys
    have hcu : collapseWSAux (c :: cs) = c :: collapseWSAux cs := by
      rw [collapseWSAux, if_neg (by simp [hc])]
    rw [jsTrim, hcu, List.dropWhile_cons_of_neg (by simp [hc])]
    exact trimRight_ne_nil (List.mem_cons_self _ _) hc

/-- The length of the normalized comment-free text is bounded by the
original length. -/
theorem length_normalizeL_le {l : List Char}
    (hnd : containsSub ['-', '-'] l = false)
    (hnb : containsSub ['/', '*'] l = false) :
    (QueryValidator.normalizeL l).length ≤ l.length := by
  rw [normalizeL_no_comments hnd hnb]
  exact (length_jsTrim_le _).trans (((length_collapse_le _).1).trans (length_jsTrim_le _))

/-- A valid verdict implies the basic shape checks passed. -/
theorem validate_basic_of_isValid {q : String}
    (h : (QueryValidator.validate q).isValid = true) :
    QueryValidator.validateBasicInput q = none := by
  cases hb : QueryValidator.validateBasicInput q with
  | none => rfl
  | some err =>
    rw [QueryValidator.validate, hb] at h
    simp at h

/-- What passing the basic shape checks means. -/
theorem basic_none_facts {q : String} (h : QueryValidator.validateBasicInput q = none) :
    q.toList ≠ [] ∧ q.toList.length ≤ securityConfig.maxQueryLength ∧
      jsTrim q.toList ≠ [] := by
  rw [QueryValidator.validateBasicInput] at h
  by_cases h1 : q.toList.isEmpty
  · rw [if_pos h1] at h
    exact absurd h (by simp)
  · rw [if_neg h1] at h
    by_cases h2 : securityConfig.maxQueryLength < q.toList.length
    · rw [if_pos h2] at h
      exact absurd h (by simp)
    · rw [if_neg h2] at h
      by_cases h3 : (jsTrim q.toList).isEmpty
      · rw [if_pos h3] at h
        exact absurd h (by simp)
      · refine ⟨by simp at h1; simpa using h1, by omega, by simpa using h3⟩

/-- The JS trim is idempotent. -/
theorem jsTrim_idem (l : List Char) : jsTrim (jsTrim l) = jsTrim l := by
  rw [jsTrim, jsTrim]
  have hdw : (trimRight (l.dropWhile isJsSpace)).dropWhile isJsSpace
      = trimRight (l.dropWhile isJsSpace) := by
    cases hq : trimRight (l.dropWhile isJsSpace) with
    | nil => rfl
    | cons c cs =>
      obtain ⟨ys, hys⟩ := trimRight_head hq
      have hc : isJsSpace c = false := dropWhile_head_false hys
      rw [List.dropWhile_cons_of_neg (by simp [hc])]
  rw [hdw, trimRight_idem]

/-- A quote in the query text fires the first suspicious pattern. -/
theorem checkSuspiciousErrors_quote {nq : List Char} (h : '\x27' ∈ nq) :
    (QueryValidator.checkSuspiciousErrors nq).isEmpty = false := by
  have hlow : '\x27' ∈ toLowerL nq := by
    rw [toLowerL]
    exact List.mem_map.mpr ⟨'\x27', h, by decide⟩
  have hp : containsSub ['\x27'] (toLowerL nq) = true := containsSub_singleton.mpr hlow
  rw [QueryValidator.checkSuspiciousErrors, QueryValidator.suspiciousPatternList]
  simp [List.filter_cons, hp]

end Lemmas

section ClaimC8

/-- C8 counterexample: this accepted query sanitizes to text with a double
space left behind by the block-comment strip (the whitespace collapse ran
first), and a second validation collapses it, so the sanitized query is not
a fixed point of a second validate call. -/
theorem validate_sanitizedQuery_not_fixed :
    (QueryValidator.validate "SELECT a /* c */ b").isValid = true ∧
    (QueryValidator.validate
        ((QueryValidator.validate "SELECT a /* c */ b").sanitizedQuery.getD "")).sanitizedQuery
      ≠ (QueryValidator.validate "SELECT a /* c */ b").sanitizedQuery :=
  ⟨by decide, by decide⟩

/-- C8 (amended): for every query the validator accepts that contains no
comment delimiter (neither a dash pair nor a block-comment opener), the
sanitized query is a fixed point: validating it again yields the same
sanitized query. With comments present the property fails, because the
comments are stripped only after whitespace runs were collapsed, so the
strip can leave adjacent spaces (and a query reducing entirely to comments
sanitizes to the empty string, which a second validate rejects without a
sanitized query). -/
theorem validate_sanitizedQuery_fixed (q : String)
    (hv : (QueryValidator.validate q).isValid = true)
    (hnd : containsSub ['-', '-'] q.toList = false)
    (hnb : containsSub ['/', '*'] q.toList = false) :
    (QueryValidator.validate
        ((QueryValidator.validate q).sanitizedQuery.getD "")).sanitizedQuery
      = (QueryValidator.validate q).sanitizedQuery := by
  have hb := validate_basic_of_isValid hv
  obtain ⟨hne, hlen, htrim⟩ := basic_none_facts hb
  have h1 : (QueryValidator.validate q).sanitizedQuery
      = some ⟨QueryValidator.normalizeL q.toList⟩ := by
    rw [QueryValidator.validate, hb]
  set nq := QueryValidator.normalizeL q.toList with hnqdef
  have hshape : nq = jsTrim (collapseWSAux (jsTrim q.toList)) :=
    normalizeL_no_comments hnd hnb
  have hnq_ne : nq ≠ [] := by rw [hshape]; exact collapsed_ne_nil htrim
  have hnq_len : nq.length ≤ securityConfig.maxQueryLength :=
    (length_normalizeL_le hnd hnb).trans hlen
  have hfix : QueryValidator.normalizeL nq = nq := by
    rw [hshape]
    exact normalizeL_fixed_of_collapsed hnd hnb
  have htl : (String.mk nq).toList = nq := rfl
  have hjsnq : jsTrim nq = nq := by
    rw [hshape, jsTrim_idem]
  have hb2 : QueryValidator.validateBasicInput ⟨nq⟩ = none := by
    rw [QueryValidator.validateBasicInput]
    have c1 : ¬((String.mk nq).toList.isEmpty = true) := by
      rw [htl]
      simpa using hnq_ne
    have c2 : ¬(securityConfig.maxQueryLength < (String.mk nq).toList.length) := by
      rw [htl]
      exact Nat.not_lt.mpr hnq_len
    have c3 : ¬((jsTrim (String.mk nq).toList).isEmpty = true) := by
      rw [htl, hjsnq]
      simpa using hnq_ne
    rw [if_neg c1, if_neg c2, if_neg c3]
  rw [h1, Option.getD_some, QueryValidator.validate, hb2]
  simp only []
  rw [htl, hfix]

/-- C8 witness: the amended fixed-point theorem applied to a concrete
comment-free accepted query. -/
theorem validate_sanitizedQuery_fixed_witness :
    (QueryValidator.validate "SELECT id FROM t").isValid = true ∧
    (QueryValidator.validate
        ((QueryValidator.validate "SELECT id FROM t").sanitizedQuery.getD "")).sanitizedQuery
      = (QueryValidator.validate "SELECT id FROM t").sanitizedQuery :=
  ⟨by decide, validate_sanitizedQuery_fixed _ (by decide) (by decide) (by decide)⟩

end ClaimC8

section ClaimC10

/-- C10 counterexample: this query contains an ASCII single quote, but only
inside a block comment that normalization strips before the suspicious
pattern check runs, and the validator accepts it. -/
theorem validate_accepts_quote_in_comment :
    '\x27' ∈ ("SELECT 1 /* don\x27t */" : String).toList ∧
    (QueryValidator.validate "SELECT 1 /* don\x27t */").isValid = true :=
  ⟨by decide, by decide⟩

/-- C10 (amended): every query whose normalized form still contains an ASCII
single quote is rejected through the first suspicious pattern — in
particular no SELECT whose inline string literal survives comment stripping
is ever admitted. A quote occurring only inside a stripped comment escapes
the check, so the universal claim over raw input strings fails. -/
theorem validate_rejects_normalized_quote (q : String)
    (h : '\x27' ∈ QueryValidator.normalizeL q.toList) :
    (QueryValidator.validate q).isValid = false := by
  cases hb : QueryValidator.validateBasicInput q with
  | some err => rw [QueryValidator.validate, hb]
  | none =>
    rw [QueryValidator.validate, hb]
    simp only []
    have hfalse := checkSuspiciousErrors_quote h
    have hne : QueryValidator.checkSuspiciousErrors (QueryValidator.normalizeL q.toList) ≠ [] := by
      intro hc
      rw [hc] at hfalse
      simp at hfalse
    simp only [Bool.and_eq_false_imp]
    simp
    intro _ _
    exact hne

/-- C10 witness: the amended rejection theorem applied to a concrete SELECT
whose string literal survives normalization. -/
theorem validate_rejects_normalized_quote_witness :
    '\x27' ∈ QueryValidator.normalizeL ("SELECT \x27a\x27" : String).toList ∧
    (QueryValidator.validate "SELECT \x27a\x27").isValid = false :=
  ⟨by decide, validate_rejects_normalized_quote _ (by decide)⟩

end ClaimC10

section ClaimC5

/-- C5 counterexample: with no explicit type, port 5432 and a host containing
the substring mysql, the detector returns mysql — the host-substring half of
the first guess clause fires before the PostgreSQL port rule is ever
examined, contradicting the claimed port-over-host precedence. -/
theorem detectDatabaseType_counterexample :
    DatabaseAdapterFactory.detectDatabaseType
        { type := none, host := some "mysql.example.com", port := some 5432 }
      = DatabaseType.mysql ∧
    DatabaseType.mysql ≠ DatabaseType.postgresql :=
  ⟨by decide, by decide⟩

/-- C5 (amended): the detector checks, in order, (1) the explicit
`config.type`; (2) port 3306 or a host containing the substring mysql, giving
mysql; (3) port 5432 or a host containing the substring postgres, giving
postgresql; (4) mysql by default. In particular a config with port 5432 and
a mysql-containing host resolves to mysql, not postgresql: the rules mix
ports and host substrings per database rather than checking all ports before
all hosts. -/
theorem detectDatabaseType_precedence (config : DatabaseConfig) :
    (∀ t, config.type = some t →
        DatabaseAdapterFactory.detectDatabaseType config = t) ∧
    (config.type = none →
      (config.port = some 3306 ∨ DatabaseAdapterFactory.hostIncludes config "mysql" = true) →
        DatabaseAdapterFactory.detectDatabaseType config = .mysql) ∧
    (config.type = none → config.port ≠ some 3306 →
      DatabaseAdapterFactory.hostIncludes config "mysql" = false →
      (config.port = some 5432 ∨
        DatabaseAdapterFactory.hostIncludes config "postgres" = true) →
        DatabaseAdapterFactory.detectDatabaseType config = .postgresql) ∧
    (config.type = none → config.port ≠ some 3306 →
      DbMcp.DatabaseAdapterFactory.hostIncludes config "mysql" = false →
      config.port ≠ some 5432 →
      DatabaseAdapterFactory.hostIncludes config "postgres" = false →
        DatabaseAdapterFactory.detectDatabaseType config = .mysql) := by
  refine ⟨?_, ?_, ?_, ?_⟩
  · intro t ht
    rw [DatabaseAdapterFactory.detectDatabaseType, ht]
  · intro ht hcase
    rw [DatabaseAdapterFactory.detectDatabaseType, ht]
    simp only []
    rw [if_pos]
    rcases hcase with h | h
    · simp [h]
    · simp [h]
  · intro ht hp1 hh1 hcase
    rw [DatabaseAdapterFactory.detectDatabaseType, ht]
    simp only []
    rw [if_neg, if_pos]
    · rcases hcase with h | h
      · simp [h]
      · simp [h]
    · simp [hh1]
      intro hc
      exact absurd hc hp1
  · intro ht hp1 hh1 hp2 hh2
    rw [DatabaseAdapterFactory.detectDatabaseType, ht]
    simp only []
    rw [if_neg, if_neg]
    · simp [hh2]
      intro hc
      exact absurd hc hp2
    · simp [hh1]
      intro hc
      exact absurd hc hp1

/-- C5 witness: the amended precedence theorem applied to a concrete config
with port 5432 and a neutral host. -/
theorem detectDatabaseType_precedence_witness :
    DatabaseAdapterFactory.detectDatabaseType
        { type := none, host := some "db.example.com", port := some 5432 }
      = DatabaseType.postgresql :=
  (detectDatabaseType_precedence _).2.2.1 rfl (by decide) (by decide) (Or.inl rfl)

end ClaimC5

section ClaimC7

/-- C7: on a connected, non-shutting-down adapter, `query` restores
`activeQueries` on every exit path — the counter is incremented before
dispatch (`enterQuery`), sits exactly one above its entry value while the
statement is in flight, and the finally block brings it back, so a
nonnegative entry value stays nonnegative throughout the call. -/
theorem mysql_query_activeQueries (st : AdapterState) (sql : String)
    (outcome : DriverOutcome) (elapsed : Nat)
    (hp : st.poolPresent = true) (hs : st.isShuttingDown = false) :
    (MySQLAdapter.query st sql outcome elapsed).2.connectionStatus.activeQueries
        = st.connectionStatus.activeQueries ∧
    (MySQLAdapter.enterQuery st).connectionStatus.activeQueries
        = st.connectionStatus.activeQueries + 1 ∧
    (0 ≤ st.connectionStatus.activeQueries →
      0 ≤ (MySQLAdapter.enterQuery st).connectionStatus.activeQueries ∧
      0 ≤ (MySQLAdapter.query st sql outcome elapsed).2.connectionStatus.activeQueries) := by
  have hq : (MySQLAdapter.query st sql outcome elapsed).2.connectionStatus.activeQueries
      = st.connectionStatus.activeQueries := by
    rw [MySQLAdapter.query, if_neg (by simp [hp]), if_neg (by simp [hs])]
    cases outcome with
    | ok rows fields =>
      by_cases hm : st.metricsEnabled <;>
        simp [MySQLAdapter.exitQuery, MySQLAdapter.updateMetrics, MySQLAdapter.enterQuery, hm]
    | err msg =>
      by_cases hm : st.metricsEnabled <;>
        simp [MySQLAdapter.exitQuery, MySQLAdapter.updateMetrics, MySQLAdapter.enterQuery, hm]
  refine ⟨hq, rfl, fun hnn => ⟨?_, ?_⟩⟩
  · simp only [MySQLAdapter.enterQuery]
    omega
  · rw [hq]
    exact hnn

/-- C7 witness: the counter theorem applied to a concrete connected adapter
state with two in-flight queries and a failing statement. -/
theorem mysql_query_activeQueries_witness :
    (⟨true, false, ⟨true, 5, 2⟩, ⟨0, 0, 0⟩, true⟩ : AdapterState).poolPresent = true ∧
    (MySQLAdapter.query ⟨true, false, ⟨true, 5, 2⟩, ⟨0, 0, 0⟩, true⟩ "SELECT 1"
        (.err "boom") 3).2.connectionStatus.activeQueries = 2 :=
  ⟨rfl, (mysql_query_activeQueries _ "SELECT 1" (.err "boom") 3 rfl rfl).1⟩

end ClaimC7

section ClaimC9

/-- C9 counterexample: a rejected database-info prefetch propagates out of
`warmup` — the outer catch logs and rethrows — so warm-up does not always
return normally. -/
theorem warmup_counterexample :
    SchemaCache.warmup "main" failingAnalyzer (fun _ => .ok none) [] =
      .error "getDatabaseInfo failed" := rfl

/-- C9 (amended): failures while profiling an individual table during
warm-up are caught and logged and never fail the call — once the three
analyzer prefetches (database info, full schema, relationships) succeed,
warm-up returns normally whatever the profiler does — but a failure of any
of those three prefetches propagates and fails the warmup call itself. -/
theorem warmup_profiler_failures_not_fatal (databaseName : String)
    (analyzer : AnalyzerModel) (profiler : String → Except String (Option String))
    (cache : List (String × CachePayload))
    (h1 : ∃ i, analyzer.getDatabaseInfo = .ok i)
    (h2 : ∃ s, analyzer.analyzeFullSchema = .ok s)
    (h3 : ∃ r, analyzer.getTableRelationships = .ok r) :
    ∃ c, SchemaCache.warmup databaseName analyzer profiler cache = .ok c := by
  obtain ⟨i, h1⟩ := h1
  obtain ⟨s, h2⟩ := h2
  obtain ⟨r, h3⟩ := h3
  rw [SchemaCache.warmup]
  simp only [h1, h2, h3, Bind.bind, Except.bind]
  exact ⟨_, rfl⟩

/-- C9 witness: warm-up over a one-table schema with a profiler that always
rejects still returns normally. -/
theorem warmup_profiler_failures_not_fatal_witness :
    (∃ i, okAnalyzer.getDatabaseInfo = .ok i) ∧
    ∃ c, SchemaCache.warmup "main" okAnalyzer (fun _ => .error "profiler down") [] = .ok c :=
  ⟨⟨"info", rfl⟩,
    warmup_profiler_failures_not_fatal "main" okAnalyzer _ [] ⟨_, rfl⟩ ⟨_, rfl⟩ ⟨_, rfl⟩⟩

end ClaimC9

/-- Summing a projection by a left fold. -/
theorem foldl_add_map {α : Type} (f : α → Nat) (l : List α) (n : Nat) :
    l.foldl (fun s r => s + f r) n = n + (l.map f).sum := by
  induction l generalizing n with
  | nil => simp
  | cons x xs ih =>
    simp only [List.foldl_cons, List.map_cons, List.sum_cons, ih]
    omega

/-- Pointwise content of a successful `Promise.all` over the cross-database
items: one result per item, in order, produced by that item's adapter call. -/
theorem crossMapM_ok {adapters : String → String → Except String AdapterQueryResult}
    {queries : List CrossQueryItem} {results : List CrossItemResult}
    (h : MultiDatabaseMCPServer.crossMapM adapters queries = .ok results) :
    results.length = queries.length ∧
    ∀ i (hq : i < queries.length) (hr : i < results.length),
      ∃ r, adapters (queries.get ⟨i, hq⟩).database (queries.get ⟨i, hq⟩).query = .ok r ∧
        results.get ⟨i, hr⟩ = MultiDatabaseMCPServer.crossItem (queries.get ⟨i, hq⟩) r := by
  induction queries generalizing results with
  | nil =>
    rw [MultiDatabaseMCPServer.crossMapM] at h
    injection h with h
    subst h
    exact ⟨rfl, fun i hq => absurd hq (by simp)⟩
  | cons item rest ih =>
    rw [MultiDatabaseMCPServer.crossMapM] at h
    cases ha : adapters item.database item.query with
    | error e =>
      rw [ha] at h
      simp [Bind.bind, Except.bind] at h
    | ok r =>
      rw [ha] at h
      cases hm : MultiDatabaseMCPServer.crossMapM adapters rest with
      | error e =>
        rw [hm] at h
        simp [Bind.bind, Except.bind] at h
      | ok rs =>
        rw [hm] at h
        simp only [Bind.bind, Except.bind, Pure.pure, Except.pure] at h
        injection h with h
        subst h
        obtain ⟨hlen, hpt⟩ := ih hm
        refine ⟨by simp [hlen], fun i hq hr => ?_⟩
        cases i with
        | zero => exact ⟨r, ha, rfl⟩
        | succ n =>
          exact hpt n (by simpa using hq) (by simpa using hr)

section ClaimC4

/-- C4: a successful cross-database call returns exactly one labeled result
per input item, in input order: item i resolved through its own pool, the
result keeps that database label and the alias (with the database name as
fallback), and the summary counts the items and sums the per-item row counts
and execution times. -/
theorem handleCrossDatabaseQuery_ok
    (adapters : String → String → Except String AdapterQueryResult)
    (queries : List CrossQueryItem) (resp : CrossResponse)
    (h : MultiDatabaseMCPServer.handleCrossDatabaseQuery adapters queries = .ok resp) :
    resp.results.length = queries.length ∧
    (∀ i (hq : i < queries.length) (hr : i < resp.results.length),
      ∃ r, adapters (queries.get ⟨i, hq⟩).database (queries.get ⟨i, hq⟩).query = .ok r ∧
        resp.results.get ⟨i, hr⟩
          = MultiDatabaseMCPServer.crossItem (queries.get ⟨i, hq⟩) r ∧
        (resp.results.get ⟨i, hr⟩).database = (queries.get ⟨i, hq⟩).database ∧
        (resp.results.get ⟨i, hr⟩).«alias»
          = MultiDatabaseMCPServer.jsOrStr (queries.get ⟨i, hq⟩).«alias»
              (queries.get ⟨i, hq⟩).database) ∧
    resp.summary.totalQueries = resp.results.length ∧
    resp.summary.totalRows = (resp.results.map (fun r => r.rowCount)).sum ∧
    resp.summary.totalExecutionTime = (resp.results.map (fun r => r.executionTime)).sum := by
  rw [MultiDatabaseMCPServer.handleCrossDatabaseQuery] at h
  by_cases hemp : queries.isEmpty
  · simp [hemp, Bind.bind, Except.bind, throw, throwThe, MonadExceptOf.throw] at h
  · rw [if_neg hemp] at h
    cases hm : MultiDatabaseMCPServer.crossMapM adapters queries with
    | error e =>
      rw [hm] at h
      simp [Bind.bind, Except.bind, Pure.pure, Except.pure] at h
    | ok results =>
      rw [hm] at h
      simp only [Bind.bind, Except.bind, Pure.pure, Except.pure] at h
      injection h with h
      subst h
      obtain ⟨hlen, hpt⟩ := crossMapM_ok hm
      refine ⟨hlen, fun i hq hr => ?_, rfl, ?_, ?_⟩
      · obtain ⟨r, har, hitem⟩ := hpt i hq hr
        exact ⟨r, har, hitem, by rw [hitem]; rfl, by rw [hitem]; rfl⟩
      · simpa using foldl_add_map (fun r => r.rowCount) results 0
      · simpa using foldl_add_map (fun r => r.executionTime) results 0

/-- C4 witness: the order and summary theorem applied to a one-item call
against the demo registry. -/
theorem handleCrossDatabaseQuery_ok_witness :
    ∃ resp, MultiDatabaseMCPServer.handleCrossDatabaseQuery crossDemoAdapters
        [{ database := "a", query := "SELECT 1", «alias» := some "A" }] = .ok resp ∧
      resp.results.length = 1 :=
  have h : MultiDatabaseMCPServer.handleCrossDatabaseQuery crossDemoAdapters
      [{ database := "a", query := "SELECT 1", «alias» := some "A" }]
      = .ok ⟨⟨1, 3, 5⟩, [⟨"a", "A", "SELECT 1", 5, 3, [], []⟩]⟩ := by decide
  ⟨_, h, (handleCrossDatabaseQuery_ok crossDemoAdapters _ _ h).1⟩

end ClaimC4

section ClaimC3

/-- C3 counterexample: with one succeeding item and one failing item, the
whole cross-database call rejects with the failing item's error — the
combined `Promise.all` has no per-item error handling, so no response
containing the successful item is returned. -/
theorem handleCrossDatabaseQuery_counterexample :
    crossDemoAdapters "a" "SELECT 1" = .ok ⟨5, 3, [], []⟩ ∧
    crossDemoAdapters "b" "SELECT 2" = .error "Connection lost" ∧
    MultiDatabaseMCPServer.handleCrossDatabaseQuery crossDemoAdapters
        [{ database := "a", query := "SELECT 1" },
         { database := "b", query := "SELECT 2" }]
      = .error "Connection lost" :=
  ⟨by decide, by decide, by decide⟩

/-- C3 (amended): a failure of any item's adapter call makes the whole
cross-database call fail; no mixed response with the successful items is
ever produced (the handler maps the items straight through a combined
`Promise.all` with no per-item catch). -/
theorem handleCrossDatabaseQuery_item_failure
    (adapters : String → String → Except String AdapterQueryResult)
    (queries : List CrossQueryItem) (item : CrossQueryItem) (e : String)
    (hmem : item ∈ queries) (hf : adapters item.database item.query = .error e) :
    ∀ resp, MultiDatabaseMCPServer.handleCrossDatabaseQuery adapters queries ≠ .ok resp := by
  intro resp hok
  obtain ⟨hlen, hpt, _, _, _⟩ := handleCrossDatabaseQuery_ok adapters queries resp hok
  obtain ⟨⟨i, hi⟩, hget⟩ := List.mem_iff_get.mp hmem
  obtain ⟨r, har, _⟩ := hpt i hi (by omega)
  rw [hget] at har
  rw [hf] at har
  exact absurd har (by simp)

/-- C3 witness: the failure-propagation theorem applied to the demo
registry. -/
theorem handleCrossDatabaseQuery_item_failure_witness :
    ({ database := "b", query := "SELECT 2" } : CrossQueryItem) ∈
      [({ database := "a", query := "SELECT 1" } : CrossQueryItem),
       { database := "b", query := "SELECT 2" }] ∧
    ∀ resp, MultiDatabaseMCPServer.handleCrossDatabaseQuery crossDemoAdapters
        [{ database := "a", query := "SELECT 1" },
         { database := "b", query := "SELECT 2" }] ≠ .ok resp :=
  ⟨by decide,
    handleCrossDatabaseQuery_item_failure crossDemoAdapters
      [{ database := "a", query := "SELECT 1" }, { database := "b", query := "SELECT 2" }]
      { database := "b", query := "SELECT 2" } "Connection lost"
      (by decide) (by decide)⟩

end ClaimC3

section ClaimC1

/-- C1: when the validator rejects a query, `executeQuery` throws the
wrapped validation failure carrying the joined error list, never invokes the
underlying database call, and leaves the result cache untouched — no result
is produced (the failure still reaches the audit ring through the catch
block, which the claim does not constrain). -/
theorem executeQuery_validation_rejection (query : String) (parameters : List JsVal)
    (options : QueryExecutor.QueryOptions) (cache : QueryExecutor.QueryCache)
    (auditLogs : List QueryExecutor.AuditLog) (behavior : QueryExecutor.DbBehavior)
    (now elapsed : Nat)
    (h : (QueryValidator.validate query).isValid = false) :
    (QueryExecutor.executeQuery query parameters options cache auditLogs behavior
        now elapsed).result
      = .error ("Query execution failed: " ++ ("Query validation failed: "
          ++ String.intercalate ", " (QueryValidator.validate query).errors)) ∧
    (QueryExecutor.executeQuery query parameters options cache auditLogs behavior
        now elapsed).dbCalls = 0 ∧
    (QueryExecutor.executeQuery query parameters options cache auditLogs behavior
        now elapsed).cache = cache := by
  simp only [QueryExecutor.executeQuery, h, Bool.not_false, if_pos]
  exact ⟨trivial, trivial, trivial⟩

/-- C1 witness: the admission theorem applied to a forbidden DELETE. -/
theorem executeQuery_validation_rejection_witness :
    (QueryValidator.validate "DELETE FROM users").isValid = false ∧
    (QueryExecutor.executeQuery "DELETE FROM users" [] {} [] [] (.rows []) 0 0).dbCalls = 0 :=
  ⟨by decide,
    (executeQuery_validation_rejection "DELETE FROM users" [] {} [] [] (.rows []) 0 0
      (by decide)).2.1⟩

end ClaimC1

section ClaimC2

/-- C2: on a successful `executeQuery` whose database call returns n rows
with effective row cap m, the result is the n-length-count row set sliced to
m rows: `rows.length = min m n`, `totalRows = n`, and `truncated` set
exactly when n exceeds m — so `rowCount == maxRows` comes back untruncated
with all rows, `rowCount > maxRows` comes back truncated to m rows, and a
truncated result always has `rows.length < totalRows`. -/
theorem executeQuery_truncation (query : String) (parameters : List JsVal)
    (options : QueryExecutor.QueryOptions) (cache : QueryExecutor.QueryCache)
    (auditLogs : List QueryExecutor.AuditLog) (rs : List Row) (now elapsed : Nat)
    (hv : (QueryValidator.validate query).isValid = true)
    (hc : (QueryExecutor.getCachedResult cache
        (QueryExecutor.generateCacheKey query parameters) now).1 = none)
    (hd : options.dryRun ≠ some true) :
    ∃ res, (QueryExecutor.executeQuery query parameters options cache auditLogs
        (.rows rs) now elapsed).result = .ok res ∧
      res.rows.length
        = min (QueryExecutor.jsOrNat options.maxRows securityConfig.maxResultRows) rs.length ∧
      res.totalRows = some rs.length ∧
      res.truncated = some (decide
        (QueryExecutor.jsOrNat options.maxRows securityConfig.maxResultRows < rs.length)) ∧
      (rs.length = QueryExecutor.jsOrNat options.maxRows securityConfig.maxResultRows →
        res.truncated = some false ∧ res.rows.length = rs.length) ∧
      (QueryExecutor.jsOrNat options.maxRows securityConfig.maxResultRows < rs.length →
        res.truncated = some true ∧
        res.rows.length = QueryExecutor.jsOrNat options.maxRows securityConfig.maxResultRows) ∧
      (res.truncated = some true →
        res.rows.length < rs.length ∧ res.totalRows = some rs.length) := by
  set m := QueryExecutor.jsOrNat options.maxRows securityConfig.maxResultRows with hm
  have hjd : QueryExecutor.jsTruthy options.dryRun = false := by
    simp [QueryExecutor.jsTruthy]
    intro hcontra
    exact absurd hcontra hd
  have hres : (QueryExecutor.executeQuery query parameters options cache auditLogs
      (.rows rs) now elapsed).result
      = .ok { rows := rs.take m, fields := QueryExecutor.extractFields rs,
              rowCount := rs.length, executionTime := elapsed,
              truncated := some (decide (m < rs.length)),
              totalRows := some rs.length } := by
    rw [QueryExecutor.executeQuery]
    simp only [hv, Bool.not_true, Bool.false_eq_true, if_false, hc, hjd,
      QueryExecutor.executeWithTimeout, QueryExecutor.executeQueryInternal]
  refine ⟨_, hres, ?_, rfl, rfl, ?_, ?_, ?_⟩
  · simp [List.length_take]
  · intro heq
    constructor
    · simp [heq]
    · simp [List.length_take, heq]
  · intro hlt
    constructor
    · simp [hlt]
    · simp [List.length_take]
      omega
  · intro htr
    simp only [Option.some.injEq, decide_eq_true_eq] at htr
    constructor
    · simp [List.length_take]
      omega
    · rfl

/-- C2 witness: the truncation theorem applied to a three-row result with a
row cap of two. -/
theorem executeQuery_truncation_witness :
    (QueryValidator.validate "SELECT 3").isValid = true ∧
    ∃ res, (QueryExecutor.executeQuery "SELECT 3" [] { maxRows := some 2 } [] []
        (.rows [[("id", .num 1)], [("id", .num 2)], [("id", .num 3)]]) 0 0).result
        = .ok res ∧
      res.rows.length = min (QueryExecutor.jsOrNat (some 2) securityConfig.maxResultRows)
        ([[("id", JsVal.num 1)], [("id", JsVal.num 2)], [("id", JsVal.num 3)]] : List Row).length ∧
      res.totalRows
        = some ([[("id", JsVal.num 1)], [("id", JsVal.num 2)], [("id", JsVal.num 3)]] : List Row).length ∧
      res.truncated = some (decide (QueryExecutor.jsOrNat (some 2) securityConfig.maxResultRows
        < ([[("id", JsVal.num 1)], [("id", JsVal.num 2)], [("id", JsVal.num 3)]] : List Row).length)) ∧
      (([[("id", JsVal.num 1)], [("id", JsVal.num 2)], [("id", JsVal.num 3)]] : List Row).length
          = QueryExecutor.jsOrNat (some 2) securityConfig.maxResultRows →
        res.truncated = some false ∧ res.rows.length
          = ([[("id", JsVal.num 1)], [("id", JsVal.num 2)], [("id", JsVal.num 3)]] : List Row).length) ∧
      (QueryExecutor.jsOrNat (some 2) securityConfig.maxResultRows
          < ([[("id", JsVal.num 1)], [("id", JsVal.num 2)], [("id", JsVal.num 3)]] : List Row).length →
        res.truncated = some true ∧
        res.rows.length = QueryExecutor.jsOrNat (some 2) securityConfig.maxResultRows) ∧
      (res.truncated = some true →
        res.rows.length
            < ([[("id", JsVal.num 1)], [("id", JsVal.num 2)], [("id", JsVal.num 3)]] : List Row).length ∧
        res.totalRows
          = some ([[("id", JsVal.num 1)], [("id", JsVal.num 2)], [("id", JsVal.num 3)]] : List Row).length) :=
  ⟨by decide,
    executeQuery_truncation "SELECT 3" [] { maxRows := some 2 } [] []
      [[("id", .num 1)], [("id", .num 2)], [("id", .num 3)]] 0 0
      (by decide) (by decide) (by decide)⟩

end ClaimC2

section ClaimC6

/-- C6 counterexample: when the timer wins, the message the caller sees is
not exactly the timeout message — the catch block of `executeQuery` wraps
every failure, the timeout included, in the execution-failure prefix. -/
theorem executeQuery_timeout_counterexample :
    (QueryExecutor.executeQuery "SELECT 1" [] { timeout := some 100 } [] []
        .timeout 0 0).result
      = .error "Query execution failed: Query timeout after 100ms" ∧
    "Query execution failed: Query timeout after 100ms" ≠ "Query timeout after 100ms" :=
  ⟨by decide, by decide⟩

/-- C6 (amended): when the timeout timer wins the race on an admitted,
uncached, non-dry-run call, the call fails and the surfaced message is the
timer's message `Query timeout after <t>ms` wrapped once by the catch-all of
`executeQuery` into `Query execution failed: Query timeout after <t>ms` —
the timeout text is preserved verbatim as a suffix but not surfaced bare. -/
theorem executeQuery_timeout_wrapped (query : String) (parameters : List JsVal)
    (options : QueryExecutor.QueryOptions) (cache : QueryExecutor.QueryCache)
    (auditLogs : List QueryExecutor.AuditLog) (now elapsed : Nat)
    (hv : (QueryValidator.validate query).isValid = true)
    (hc : (QueryExecutor.getCachedResult cache
        (QueryExecutor.generateCacheKey query parameters) now).1 = none)
    (hd : options.dryRun ≠ some true) :
    (QueryExecutor.executeQuery query parameters options cache auditLogs
        .timeout now elapsed).result
      = .error ("Query execution failed: " ++ ("Query timeout after "
          ++ toString (QueryExecutor.jsOrNat options.timeout
              securityConfig.maxExecutionTime) ++ "ms")) := by
  have hjd : QueryExecutor.jsTruthy options.dryRun = false := by
    simp [QueryExecutor.jsTruthy]
    intro hcontra
    exact absurd hcontra hd
  rw [QueryExecutor.executeQuery]
  simp only [hv, Bool.not_true, Bool.false_eq_true, if_false, hc, hjd,
    QueryExecutor.executeWithTimeout]

/-- C6 witness: the wrapped-timeout theorem applied to a concrete admitted
query with a fifty-millisecond budget. -/
theorem executeQuery_timeout_wrapped_witness :
    (QueryValidator.validate "SELECT 2").isValid = true ∧
    (QueryExecutor.executeQuery "SELECT 2" [] { timeout := some 50 } [] []
        .timeout 0 0).result
      = .error ("Query execution failed: " ++ ("Query timeout after "
          ++ toString (QueryExecutor.jsOrNat (some 50)
              securityConfig.maxExecutionTime) ++ "ms")) :=
  ⟨by decide,
    executeQuery_timeout_wrapped "SELECT 2" [] { timeout := some 50 } [] [] 0 0
      (by decide) (by decide) (by decide)⟩

end ClaimC6

end DbMcp
